import Mathlib

/-!
Shallow embedding of the pino-pretty formatting engine (src/index.js) and
proofs about its behaviour.

The JSON parser (fast-json-parse), the chalk colour library and the js-joda
time library are external collaborators; they are modelled as parameters
(a parse function, a structure of styling functions, a structure of fallible
time operations).  Everything else is translated directly from src/index.js.

JavaScript values appearing in parsed log records are modelled by the `Json`
inductive type; an absent property is `Option.none` (JS `undefined`).
JS numbers are modelled as integers (`Int`), which covers every value the
claims quantify over.
-/

/-- A parsed JSON value (the result of the external JSON parser).  An object
is carried as its field list in JS enumeration order. -/
inductive Json where
  | null : Json
  | bool : Bool → Json
  | num : Int → Json
  | str : String → Json
  | arr : List Json → Json
  | obj : List (String × Json) → Json

/-- Decimal rendering of a natural number, digit by digit (JS ToString on a
non-negative integer). -/
def digitChar (d : Nat) : Char :=
  if d = 0 then '0' else if d = 1 then '1' else if d = 2 then '2'
  else if d = 3 then '3' else if d = 4 then '4' else if d = 5 then '5'
  else if d = 6 then '6' else if d = 7 then '7' else if d = 8 then '8' else '9'

/-- Digit list of `n`, with explicit fuel so that the recursion is structural
(the kernel can evaluate it). -/
def natToDecAux : Nat → Nat → List Char
  | 0, _ => []
  | fuel + 1, n =>
      if n < 10 then [digitChar n]
      else natToDecAux fuel (n / 10) ++ [digitChar (n % 10)]

def natToDec (n : Nat) : String :=
  String.mk (natToDecAux (n + 1) n)

/-- JS ToString of a number (integral case). -/
def intToDec (n : Int) : String :=
  if n < 0 then "-" ++ natToDec n.natAbs else natToDec n.toNat

/-- JS truthiness of a value (`undefined` is `none`). -/
def truthy : Option Json → Bool
  | none => false
  | some Json.null => false
  | some (Json.bool b) => b
  | some (Json.num n) => n != 0
  | some (Json.str s) => s != ""
  | some (Json.arr _) => true
  | some (Json.obj _) => true

/-- First-match association lookup (JS objects have unique keys, so this is
exact for parser-produced objects). -/
def assocGet : List (String × Json) → String → Option Json
  | [], _ => none
  | (k', v) :: rest, k => if k' = k then some v else assocGet rest k

/-- Array property access with a canonical decimal index key. -/
def arrGet : List Json → Nat → String → Option Json
  | [], _, _ => none
  | x :: rest, i, k => if natToDec i = k then some x else arrGet rest (i + 1) k

/-- JS property read `value[k]`; `none` is `undefined`. -/
def jsGet : Json → String → Option Json
  | Json.obj fs, k => assocGet fs k
  | Json.arr xs, k => arrGet xs 0 k
  | _, _ => none

/-- JS `Object.prototype.hasOwnProperty` for parser-produced values. -/
def hasOwn (j : Json) (k : String) : Bool :=
  (jsGet j k).isSome

/-- JS `Object.keys` (enumeration order; array indices as decimal strings). -/
def jsKeys : Json → List String
  | Json.obj fs => fs.map Prod.fst
  | Json.arr xs => (List.range xs.length).map natToDec
  | _ => []

mutual
/-- JS ToString of a defined value (template-literal and string concatenation
coercion). -/
def jsToStringV : Json → String
  | Json.null => "null"
  | Json.bool true => "true"
  | Json.bool false => "false"
  | Json.num n => intToDec n
  | Json.str s => s
  | Json.obj _ => "[object Object]"
  | Json.arr xs => joinCommaElems xs

/-- `Array.prototype.join(',')` with JS element coercion (null prints empty). -/
def joinCommaElems : List Json → String
  | [] => ""
  | [Json.null] => ""
  | [x] => jsToStringV x
  | Json.null :: xs => "," ++ joinCommaElems xs
  | x :: xs => jsToStringV x ++ "," ++ joinCommaElems xs
end

/-- JS ToString of a possibly-undefined value. -/
def jsToString : Option Json → String
  | none => "undefined"
  | some v => jsToStringV v

/-! ## String splitting / joining primitives used by the source

`String.prototype.split('\n')`, `split(/\r?\n/)`, `split(',')`, the join of
an array with a separator, and the two regular expressions of
`filterObjects` are modelled as executable functions on character lists. -/

/-- Extend the first group of a split with a leading character. -/
def consHead (c : Char) : List (List Char) → List (List Char)
  | [] => [[c]]
  | g :: gs => (c :: g) :: gs

/-- `split('\n')` on character lists. -/
def splitNlL : List Char → List (List Char)
  | [] => [[]]
  | c :: rest =>
      if c = '\n' then [] :: splitNlL rest
      else consHead c (splitNlL rest)

/-- `split(',')` on character lists. -/
def splitCommaL : List Char → List (List Char)
  | [] => [[]]
  | c :: rest =>
      if c = ',' then [] :: splitCommaL rest
      else consHead c (splitCommaL rest)

/-- `split(/\r?\n/)` on character lists: a newline, optionally preceded by a
carriage return, separates lines. -/
def splitCrNlL : List Char → List (List Char)
  | [] => [[]]
  | '\r' :: '\n' :: rest => [] :: splitCrNlL rest
  | '\n' :: rest => [] :: splitCrNlL rest
  | c :: rest => consHead c (splitCrNlL rest)

def splitNlStr (s : String) : List String := (splitNlL s.data).map String.mk

def splitCommaStr (s : String) : List String := (splitCommaL s.data).map String.mk

def splitCrNlStr (s : String) : List String := (splitCrNlL s.data).map String.mk

/-- `Array.prototype.join(sep)` on a list of strings. -/
def joinWith (sep : String) : List String → String
  | [] => ""
  | [x] => x
  | x :: xs => x ++ sep ++ joinWith sep xs

/-- Concatenation of a list of strings (a `result += piece` loop). -/
def sjoin : List String → String
  | [] => ""
  | x :: xs => x ++ sjoin xs

/-- The character class `\s` of JS regular expressions. -/
def isJsWs (c : Char) : Bool :=
  c = ' ' || c = '\t' || c = '\n' || c = '\r' || c = '\x0b' || c = '\x0c' ||
  c.toNat = 0xa0 || c.toNat = 0x1680 ||
  (0x2000 ≤ c.toNat && c.toNat ≤ 0x200a) ||
  c.toNat = 0x2028 || c.toNat = 0x2029 || c.toNat = 0x202f ||
  c.toNat = 0x205f || c.toNat = 0x3000 || c.toNat = 0xfeff

/-- Literal-prefix test on character lists (pattern first). -/
def strHasPrefix : List Char → List Char → Bool
  | [], _ => true
  | _ :: _, [] => false
  | p :: ps, c :: cs => p == c && strHasPrefix ps cs

/-- `String.mk` of `n` spaces: `Array(n + 1).join(' ')`. -/
def pad (n : Nat) : String := String.mk (List.replicate n ' ')

/-- The test `/^\s*"stack"/.test(line)`. -/
def stackTest (line : String) : Bool :=
  strHasPrefix "\"stack\"".data (line.data.dropWhile isJsWs)

/-- The match `/^(\s*"stack":)\s*"(.*)",?$/.exec(line)`: returns the two
capture groups on success.  `.*` is greedy, so the second group extends to
the last double quote that is followed by at most one comma and then the end
of the line. -/
def stackExec (line : String) : Option (String × String) :=
  let ws := line.data.takeWhile isJsWs
  let rest := line.data.drop ws.length
  if strHasPrefix "\"stack\":".data rest then
    let g1 := String.mk ws ++ "\"stack\":"
    let rest2 := rest.drop 8
    let rest3 := rest2.drop (rest2.takeWhile isJsWs).length
    match rest3 with
    | '"' :: inner =>
        if inner.getLast? = some '"' then
          some (g1, String.mk inner.dropLast)
        else if inner.getLast? = some ',' && inner.dropLast.getLast? = some '"' then
          some (g1, String.mk inner.dropLast.dropLast)
        else none
    | _ => none
  else none

/-- `matches[2].replace(/\\n/g, repl)`: every literal backslash-n pair is
replaced by `repl`. -/
def replEscNl : List Char → String → String
  | [], _ => ""
  | '\\' :: 'n' :: rest, r => r ++ replEscNl rest r
  | c :: rest, r => String.singleton c ++ replEscNl rest r


/-! ## The formatter (translated from src/index.js) -/

/-- The fixed severity table (src/index.js lines 10-18).  JS property lookup
coerces the key to a string, so the table is keyed by strings; the `default`
entry is an ordinary key of the object. -/
def levels (k : String) : Option String :=
  if k = "default" then some "USERLVL"
  else if k = "60" then some "FATAL"
  else if k = "50" then some "ERROR"
  else if k = "40" then some "WARN"
  else if k = "30" then some "INFO"
  else if k = "20" then some "DEBUG"
  else if k = "10" then some "TRACE"
  else none

/-- Configuration after the `Object.assign({}, defaultOptions, options)`
merge; the field defaults are `defaultOptions` (lines 20-30). -/
structure Opts where
  colorize : Bool := false
  crlf : Bool := false
  dateFormat : String := "yyyy-MM-dd HH:mm:ss.SSS Z"
  errorLikeObjectKeys : List String := ["err", "error"]
  errorProps : String := ""
  levelFirst : Bool := false
  localTime : Bool := false
  messageKey : String := "msg"
  translateTime : Bool := false

def defaultOptions : Opts := {}

/-- `const EOL = opts.crlf ? '\r\n' : '\n'` (line 56). -/
def eolStr (opts : Opts) : String := if opts.crlf then "\r\n" else "\n"

/-- `const IDENT = '    '` (line 57). -/
def IDENT : String := "    "

/-- `isPinoLog` (lines 32-34): the parsed value is truthy, has an own
property `v`, and that property is strictly equal to the number 1. -/
def isPinoLog (log : Option Json) : Bool :=
  truthy log &&
    match log with
    | some l =>
        hasOwn l "v" &&
          match jsGet l "v" with
          | some (Json.num n) => n == 1
          | _ => false
    | none => false

/-- The chalk colour context: an opaque styling function per colour used
(external collaborator, only reached when `colorize` is on). -/
structure ColorLib where
  white : String → String
  bgRed : String → String
  red : String → String
  yellow : String → String
  green : String → String
  blue : String → String
  grey : String → String

/-- `nocolor` (lines 50-52). -/
def nocolor (input : String) : String := input

/-- The `color` table (lines 62-80): identity functions, overwritten with the
chalk styles when `colorize` is set.  `key` is the (string-coerced) level
key; every key of `levels` other than the numeric six maps to the `default`
entry. -/
def colorFor (opts : Opts) (cl : ColorLib) (key : String) : String → String :=
  if opts.colorize then
    if key = "60" then cl.bgRed
    else if key = "50" then cl.red
    else if key = "40" then cl.yellow
    else if key = "30" then cl.green
    else if key = "20" then cl.blue
    else if key = "10" then cl.grey
    else cl.white
  else nocolor

/-- The js-joda operations used by `formatTime`, as opaque fallible
functions (external collaborator).  `Nat` stands in for the opaque
instant / zoned-date-time / formatter handles. -/
structure TimeLib where
  ofEpochMilli : Option Json → Except String Nat
  ofInstant : Nat → Bool → Except String Nat
  ofPattern : String → Except String Nat
  format : Nat → Nat → Except String String

/-- `formatTime` (lines 36-48).  Only the final `formatter.format` call is
inside the `try`; failures of `Instant.ofEpochMilli`,
`ZonedDateTime.ofInstant` and `DateTimeFormatter.ofPattern` propagate.  The
catch branch returns the raw `epoch` argument (which is `log.time`, possibly
`undefined`). -/
def formatTime (tl : TimeLib) (epoch : Option Json) (formatString : String)
    (localTime : Bool) : Except String (Option Json) :=
  match tl.ofEpochMilli epoch with
  | Except.error e => Except.error e
  | Except.ok instant =>
    match tl.ofInstant instant localTime with
    | Except.error e => Except.error e
    | Except.ok zonedDateTime =>
      match tl.ofPattern formatString with
      | Except.error e => Except.error e
      | Except.ok formatter =>
        match tl.format formatter zonedDateTime with
        | Except.ok s => Except.ok (some (Json.str s))
        | Except.error _ => Except.ok epoch

/-- `const standardKeys = [...]` (lines 90-97). -/
def standardKeys : List String := ["pid", "hostname", "name", "level", "time", "v"]

/-- In-place update of an own property (JS `log.time = x`); appends when the
key is absent (insertion order). -/
def setAssoc : List (String × Json) → String → Json → List (String × Json)
  | [], k, v => [(k, v)]
  | (k', v') :: rest, k, v =>
      if k' = k then (k, v) :: rest else (k', v') :: setAssoc rest k v

/-- `log.time = r` for the result of `formatTime` (line 100).  When the
catch branch returned an undefined epoch, JS stores `undefined` in the
property; rendering cannot distinguish that from the absent property (the
`time` key is in every exclusion set and stringifies to `undefined` either
way), so the record is left unchanged. -/
def setTime (log : Json) : Option Json → Json
  | none => log
  | some v =>
      match log with
      | Json.obj fs => Json.obj (setAssoc fs "time" v)
      | j => j

/-- Lines 99-101: translate the timestamp if configured. -/
def translateLog (opts : Opts) (tl : TimeLib) (log : Json) : Except String Json :=
  if opts.translateTime then
    (formatTime tl (jsGet log "time") opts.dateFormat opts.localTime).map (setTime log)
  else Except.ok log

/-- `joinLinesWithIndentation` (lines 177-183): split on `/\r?\n/`, indent
every line but the first by one unit, join with the configured terminator. -/
def joinLinesWithIndentation (eol : String) (value : String) : String :=
  match splitCrNlStr value with
  | [] => ""
  | l0 :: rest => joinWith eol (l0 :: rest.map (fun l => IDENT ++ l))

/-- Hex digit for the control-character escapes of JSON.stringify. -/
def hexDigit (d : Nat) : Char :=
  if d < 10 then digitChar d
  else if d = 10 then 'a' else if d = 11 then 'b' else if d = 12 then 'c'
  else if d = 13 then 'd' else if d = 14 then 'e' else 'f'

def escChar (c : Char) : String :=
  if c = '"' then "\\\""
  else if c = '\\' then "\\\\"
  else if c = '\n' then "\\n"
  else if c = '\r' then "\\r"
  else if c = '\t' then "\\t"
  else if c = '\x08' then "\\b"
  else if c = '\x0c' then "\\f"
  else if c.toNat < 32 then
    "\\u00" ++ String.mk [hexDigit (c.toNat / 16), hexDigit (c.toNat % 16)]
  else String.singleton c

def escapeStr : List Char → String
  | [] => ""
  | c :: rest => escChar c ++ escapeStr rest

def jsonQuote (s : String) : String := "\"" ++ escapeStr s.data ++ "\""

mutual
def stringifyV (ind : Nat) : Json → String
  | Json.null => "null"
  | Json.bool true => "true"
  | Json.bool false => "false"
  | Json.num n => intToDec n
  | Json.str s => jsonQuote s
  | Json.arr [] => "[]"
  | Json.arr (x :: xs) =>
      "[\n" ++ stringifyItems (ind + 2) (x :: xs) ++ "\n" ++ pad ind ++ "]"
  | Json.obj [] => "\x7b\x7d"
  | Json.obj (f :: fs) =>
      "\x7b\n" ++ stringifyFields (ind + 2) (f :: fs) ++ "\n" ++ pad ind ++ "\x7d"

def stringifyItems (ind : Nat) : List Json → String
  | [] => ""
  | [x] => pad ind ++ stringifyV ind x
  | x :: xs => pad ind ++ stringifyV ind x ++ ",\n" ++ stringifyItems ind xs

def stringifyFields (ind : Nat) : List (String × Json) → String
  | [] => ""
  | [(k, v)] => pad ind ++ jsonQuote k ++ ": " ++ stringifyV ind v
  | (k, v) :: fs =>
      pad ind ++ jsonQuote k ++ ": " ++ stringifyV ind v ++ ",\n" ++ stringifyFields ind fs
end

/-- One line of the error-like re-indentation loop (lines 205-224): a line
whose head matches the stack test is replaced by the re-expanded stack (or
dropped entirely when the full stack pattern fails); other lines are copied
through. -/
def lineOut (line : String) : String :=
  if stackTest line then
    match stackExec line with
    | some (g1, g2) =>
        let indentation := pad ((line.data.takeWhile isJsWs).length + 4)
        g1 ++ "\n" ++ indentation ++ replEscNl g2.data ("\n" ++ indentation)
    | none => ""
  else line

/-- Lines 203-224: split the serialized segment on `'\n'`, process each line,
and join the processed lines with a bare `'\n'`. -/
def reindentLines (S : String) : String :=
  match splitNlStr S with
  | [] => ""
  | l0 :: rest => lineOut l0 ++ sjoin (rest.map (fun l => "\n" ++ lineOut l))

/-- The error-like branch of `filterObjects` (lines 199-224). -/
def errorLikeSegment (eol : String) (k : String) (v : Json) : String :=
  reindentLines (IDENT ++ k ++ ": " ++ joinLinesWithIndentation eol (stringifyV 0 v) ++ eol)

/-- The body of one iteration of the `filterObjects` key loop
(lines 197-228). -/
def foSeg (eol mk : String) (elk : List String) (exStd : Bool) (value : Json)
    (k : String) : String :=
  if elk.contains k then errorLikeSegment eol k ((jsGet value k).getD Json.null)
  else if (mk :: (if exStd then standardKeys else [])).contains k then ""
  else
    IDENT ++ k ++ ": " ++
      joinLinesWithIndentation eol (stringifyV 0 ((jsGet value k).getD Json.null)) ++ eol

/-- `filterObjects` (lines 185-231).  The `excludeStandardKeys` parameter is
compared against `false`; the call without the argument (line 172) passes
`true` here. -/
def filterObjects (eol : String) (value : Json) (mk : String) (elk : List String)
    (exStd : Bool) : String :=
  (jsKeys value).foldl (fun result k => result ++ foSeg eol mk elk exStd value k) ""

/-- The identity block of the header (lines 114-132). -/
def identityBlock (log : Json) : String :=
  if truthy (jsGet log "name") || truthy (jsGet log "pid") ||
      truthy (jsGet log "hostname") then
    let s := " ("
    let s := if truthy (jsGet log "name") then s ++ jsToString (jsGet log "name") else s
    let s :=
      if truthy (jsGet log "name") && truthy (jsGet log "pid") then
        s ++ "/" ++ jsToString (jsGet log "pid")
      else if truthy (jsGet log "pid") then s ++ jsToString (jsGet log "pid")
      else s
    let s := if truthy (jsGet log "hostname") then
        s ++ " on " ++ jsToString (jsGet log "hostname") else s
    s ++ ")"
  else ""

/-- `coloredLevel` (lines 105-107). -/
def coloredLevel (opts : Opts) (cl : ColorLib) (log : Json) : String :=
  let key := jsToString (jsGet log "level")
  match levels key with
  | some lbl => colorFor opts cl key lbl
  | none => colorFor opts cl "default" ((levels "default").getD "")

/-- The header line (lines 103-140): bracketed timestamp, severity token,
identity block, `": "`, the message when truthy, and the terminator. -/
def headerLine (opts : Opts) (cl : ColorLib) (log : Json) : String :=
  let line := "[" ++ jsToString (jsGet log "time") ++ "]"
  let lvl := coloredLevel opts cl log
  let line := if opts.levelFirst then lvl ++ " " ++ line else line ++ " " ++ lvl
  let line := line ++ identityBlock log
  let line := line ++ ": "
  let line :=
    if truthy (jsGet log opts.messageKey) then
      line ++ jsToString (jsGet log opts.messageKey)
    else line
  line ++ eolStr opts

/-- `excludedProps` (line 148). -/
def excludedProps (mk : String) : List String := standardKeys ++ [mk, "type", "stack"]

/-- `propsForPrint` (lines 150-157). -/
def propsForPrint (errorProps : List String) (mk : String) (log : Json) :
    List String :=
  if errorProps.head? = some "*" then
    (jsKeys log).filter (fun p => !(excludedProps mk).contains p)
  else
    errorProps.filter (fun p => !(excludedProps mk).contains p)

/-- `value instanceof Object` for parsed JSON values: true exactly for
objects and arrays. -/
def isInstanceOfObject : Json → Bool
  | Json.obj _ => true
  | Json.arr _ => true
  | _ => false

/-- One iteration of the error-props loop (lines 159-169). -/
def propSeg (eol : String) (elk : List String) (log : Json) (k : String) :
    String :=
  match jsGet log k with
  | none => ""
  | some v =>
      if isInstanceOfObject v then
        k ++ ": \x7b" ++ eol ++ filterObjects eol v "" elk false ++ "\x7d" ++ eol
      else k ++ ": " ++ jsToStringV v ++ eol

/-- Lines 145-170: the extra-property block of the error branch. -/
def errorPropsBlock (eol mk : String) (elk : List String)
    (errorProps : List String) (log : Json) : String :=
  if errorProps.length > 0 then
    (propsForPrint errorProps mk log).foldl
      (fun line k => line ++ propSeg eol elk log k) ""
  else ""

/-- `pretty` (lines 82-175), the per-line formatting function returned by the
factory.  `jsonParser` is the external JSON parser (`none` models a parse
error).  A JS exception escaping the function is `Except.error`. -/
def pretty (opts : Opts) (cl : ColorLib) (tl : TimeLib)
    (jsonParser : String → Option Json) (inputLine : String) :
    Except String String :=
  let eol := eolStr opts
  match jsonParser inputLine with
  | none => Except.ok (inputLine ++ eol)
  | some log0 =>
      if isPinoLog (some log0) = false then Except.ok (inputLine ++ eol)
      else
        match translateLog opts tl log0 with
        | Except.error e => Except.error e
        | Except.ok log =>
            match jsGet log "type" with
            | some (Json.str "Error") =>
                match jsGet log "stack" with
                | some (Json.str stack) =>
                    Except.ok
                      (headerLine opts cl log ++ IDENT ++
                        joinLinesWithIndentation eol stack ++ eol ++
                        errorPropsBlock eol opts.messageKey opts.errorLikeObjectKeys
                          (splitCommaStr opts.errorProps) log)
                | _ =>
                    Except.error "TypeError: cannot read property split of a non-string stack"
            | _ =>
                Except.ok
                  (headerLine opts cl log ++
                    filterObjects eol log opts.messageKey opts.errorLikeObjectKeys true)

def plainColors : ColorLib :=
  ⟨nocolor, nocolor, nocolor, nocolor, nocolor, nocolor, nocolor⟩

def okTimeLib : TimeLib :=
  ⟨fun _ => Except.ok 0, fun _ _ => Except.ok 0, fun _ => Except.ok 0,
    fun _ _ => Except.ok "formatted-time"⟩

/-! Concrete fixtures used by witnesses and counterexamples. -/

/-- A parse function that recognizes exactly one line, as `JSON.parse`
would parse it. -/
def parseAs (l : Json) (txt : String) : String → Option Json :=
  fun s => if s = txt then some l else none

/-- A js-joda model whose pattern compilation fails (as
`DateTimeFormatter.ofPattern` does on a malformed pattern). -/
def badPatternTimeLib : TimeLib :=
  ⟨fun _ => Except.ok 0, fun _ _ => Except.ok 0,
    fun _ => Except.error "IllegalArgumentException: bad pattern",
    fun _ _ => Except.ok "t"⟩

/-- A js-joda model whose terminal `format` call fails. -/
def failFormatTimeLib : TimeLib :=
  ⟨fun _ => Except.ok 0, fun _ _ => Except.ok 0, fun _ => Except.ok 0,
    fun _ _ => Except.error "DateTimeException: format failure"⟩

def ttBadOpts : Opts :=
  { defaultOptions with translateTime := true, dateFormat := "bad" }

def simpleLog : Json := Json.obj [("v", Json.num 1)]

def errLogNoStack : Json := Json.obj [("v", Json.num 1), ("type", Json.str "Error")]

def errLogAB : Json :=
  Json.obj [("v", Json.num 1), ("type", Json.str "Error"), ("stack", Json.str "a\nb")]

def txtAB : String := "\x7b\"v\":1,\"type\":\"Error\",\"stack\":\"a\\nb\"\x7d"

def ttOkOpts : Opts := { defaultOptions with translateTime := true }

/-- `errLogAB` after line 100 stores the formatted time produced by
`okTimeLib` (the `time` property is appended, as JS assignment of an absent
property does). -/
def errLogABTranslated : Json :=
  Json.obj [("v", Json.num 1), ("type", Json.str "Error"),
    ("stack", Json.str "a\nb"), ("time", Json.str "formatted-time")]

def lvlLog : Json := Json.obj [("v", Json.num 1), ("level", Json.num 25)]

def wildLog : List (String × Json) :=
  [("v", Json.num 1), ("type", Json.str "Error"), ("stack", Json.str "s"),
    ("msg", Json.str "m"), ("custom", Json.str "c"), ("extra", Json.num 5)]

def pidLog : Json := Json.obj [("v", Json.num 1), ("pid", Json.num 0)]

def txtPid : String := "\x7b\"v\":1,\"pid\":0\x7d"

def identLog : Json :=
  Json.obj [("name", Json.str "app"), ("pid", Json.num 42),
    ("hostname", Json.str "example")]

def errLvlLog : Json :=
  Json.obj [("v", Json.num 1), ("level", Json.num 30), ("type", Json.str "Error")]

def txtErrLvl : String := "\x7b\"v\":1,\"level\":30,\"type\":\"Error\"\x7d"

def crlfOpts : Opts :=
  { defaultOptions with crlf := true, errorLikeObjectKeys := ["\"stack\""] }

def quotedStackLog : Json := Json.obj [("v", Json.num 1), ("\"stack\"", Json.str "a")]

def txtQuotedStack : String := "\x7b\"v\":1,\"\\\"stack\\\"\":\"a\"\x7d"

def noTimeErrLog : Json :=
  Json.obj [("v", Json.num 1), ("msg", Json.str "hi"), ("type", Json.str "Error")]

def txtNoTimeErr : String := "\x7b\"v\":1,\"msg\":\"hi\",\"type\":\"Error\"\x7d"

def noTimeLog : Json := Json.obj [("v", Json.num 1), ("msg", Json.str "hi")]

def txtNoTime : String := "\x7b\"v\":1,\"msg\":\"hi\"\x7d"

/-- Equality of formatter results is decidable (used to evaluate the
formatter on concrete inputs in witnesses and counterexamples). -/
instance : DecidableEq (Except String String) := fun a b =>
  match a, b with
  | Except.ok x, Except.ok y =>
      if h : x = y then isTrue (by rw [h])
      else isFalse (by intro he; cases he; exact h rfl)
  | Except.error x, Except.error y =>
      if h : x = y then isTrue (by rw [h])
      else isFalse (by intro he; cases he; exact h rfl)
  | Except.ok _, Except.error _ => isFalse (by intro he; cases he)
  | Except.error _, Except.ok _ => isFalse (by intro he; cases he)

/-! ## General lemmas about the string primitives -/

theorem sjoin_append (xs ys : List String) :
    sjoin (xs ++ ys) = sjoin xs ++ sjoin ys := by
  induction xs with
  | nil => simp [sjoin, String.empty_append]
  | cons x xs ih => simp [sjoin, ih, String.append_assoc]

theorem foldl_append_eq {α : Type} (f : α → String) (l : List α) (init : String) :
    l.foldl (fun r k => r ++ f k) init = init ++ sjoin (l.map f) := by
  induction l generalizing init with
  | nil => simp [sjoin, String.append_empty]
  | cons x xs ih => simp [List.foldl, sjoin, ih, String.append_assoc]

/-- The final character of `s` is a newline. -/
def EndsNl (s : String) : Prop := ['\n'] <:+ s.data

instance (s : String) : Decidable (EndsNl s) := by
  unfold EndsNl
  infer_instance

theorem endsNl_append (s t : String) (h : EndsNl t) : EndsNl (s ++ t) := by
  unfold EndsNl at *
  rw [String.data_append]
  exact h.trans (List.suffix_append s.data t.data)

theorem endsNl_eolStr (opts : Opts) : EndsNl (eolStr opts) := by
  unfold eolStr
  split <;> decide

theorem endsNl_append_cases (s t : String) (hs : EndsNl s)
    (ht : t = "" ∨ EndsNl t) : EndsNl (s ++ t) := by
  rcases ht with h | h
  · rw [h, String.append_empty]; exact hs
  · exact endsNl_append s t h

theorem endsNl_ne_empty (s : String) (h : EndsNl s) : s ≠ "" := by
  obtain ⟨A, hA⟩ := h
  intro hs
  rw [hs] at hA
  simp at hA

theorem sjoin_endsNl_or_empty (l : List String)
    (h : ∀ x ∈ l, x = "" ∨ EndsNl x) :
    sjoin l = "" ∨ EndsNl (sjoin l) := by
  induction l with
  | nil => left; rfl
  | cons x xs ih =>
      have hx := h x (List.mem_cons_self x xs)
      have hxs := ih (fun y hy => h y (List.mem_cons_of_mem x hy))
      rcases hx with hx | hx
      · rw [sjoin, hx, String.empty_append]
        exact hxs
      · right
        rcases hxs with h2 | h2
        · rw [sjoin, h2, String.append_empty]
          exact hx
        · exact endsNl_append x (sjoin xs) h2

theorem consHead_ne_nil (c : Char) (l : List (List Char)) : consHead c l ≠ [] := by
  cases l <;> simp [consHead]

theorem consHead_append_of_ne_nil (c : Char) (l m : List (List Char)) (h : l ≠ []) :
    consHead c (l ++ m) = consHead c l ++ m := by
  cases l with
  | nil => exact absurd rfl h
  | cons g gs => simp [consHead]

theorem splitNlL_ne_nil (l : List Char) : splitNlL l ≠ [] := by
  induction l with
  | nil => simp [splitNlL]
  | cons c rest ih =>
      unfold splitNlL
      split
      · simp
      · exact consHead_ne_nil c _

theorem splitNlL_append_nl (A : List Char) :
    splitNlL (A ++ ['\n']) = splitNlL A ++ [[]] := by
  induction A with
  | nil => simp [splitNlL, consHead]
  | cons c rest ih =>
      by_cases hc : c = '\n'
      · subst hc
        simp only [List.cons_append]
        unfold splitNlL
        simp [ih]
      · simp only [List.cons_append]
        unfold splitNlL
        rw [if_neg hc, if_neg hc, ih,
          consHead_append_of_ne_nil c _ _ (splitNlL_ne_nil rest)]

theorem splitCrNlL_ne_nil (l : List Char) : splitCrNlL l ≠ [] := by
  induction l using splitCrNlL.induct <;>
    simp_all [splitCrNlL, consHead_ne_nil]

theorem lineOut_mk_nil : lineOut (String.mk []) = "" := by decide

/-- Unfold `reindentLines` on a known split of the segment. -/
theorem reindentLines_of_split (S : String) (g : List Char)
    (gs : List (List Char)) (h : splitNlL S.data = g :: gs) :
    reindentLines S =
      lineOut (String.mk g) ++
        sjoin ((gs.map String.mk).map (fun l => "\n" ++ lineOut l)) := by
  unfold reindentLines splitNlStr
  rw [h]
  simp only [List.map_cons]

/-- If the processed segment ends with a newline, so does its re-indentation:
the final empty piece of the split contributes a trailing bare newline. -/
theorem reindentLines_endsNl (S : String) (h : EndsNl S) :
    EndsNl (reindentLines S) := by
  obtain ⟨A, hA⟩ := h
  obtain ⟨g, gs, hgs⟩ := List.exists_cons_of_ne_nil (splitNlL_ne_nil A)
  have hsplit : splitNlL S.data = g :: (gs ++ [[]]) := by
    rw [← hA, splitNlL_append_nl, hgs]
    simp
  rw [reindentLines_of_split S g (gs ++ [[]]) hsplit]
  rw [List.map_append, List.map_append, sjoin_append]
  simp only [List.map_cons, List.map_nil, sjoin, lineOut_mk_nil, String.append_empty]
  apply endsNl_append
  apply endsNl_append
  decide

theorem errorLikeSegment_endsNl (eol k : String) (v : Json) (heol : EndsNl eol) :
    EndsNl (errorLikeSegment eol k v) := by
  unfold errorLikeSegment
  exact reindentLines_endsNl _ (endsNl_append _ _ heol)

theorem headerLine_endsNl (opts : Opts) (cl : ColorLib) (log : Json) :
    EndsNl (headerLine opts cl log) := by
  unfold headerLine
  exact endsNl_append _ _ (endsNl_eolStr opts)

theorem foSeg_empty_or_endsNl (eol mk : String) (elk : List String) (exStd : Bool)
    (v : Json) (k : String) (heol : EndsNl eol) :
    foSeg eol mk elk exStd v k = "" ∨ EndsNl (foSeg eol mk elk exStd v k) := by
  unfold foSeg
  split
  · right; exact errorLikeSegment_endsNl eol k _ heol
  · split <;> split
    all_goals
      first
        | (left; rfl)
        | (right; exact endsNl_append _ _ heol)

theorem filterObjects_empty_or_endsNl (eol : String) (v : Json) (mk : String)
    (elk : List String) (exStd : Bool) (heol : EndsNl eol) :
    filterObjects eol v mk elk exStd = "" ∨ EndsNl (filterObjects eol v mk elk exStd) := by
  unfold filterObjects
  rw [foldl_append_eq, String.empty_append]
  apply sjoin_endsNl_or_empty
  intro x hx
  obtain ⟨k, _, hk⟩ := List.mem_map.mp hx
  rw [← hk]
  exact foSeg_empty_or_endsNl eol mk elk exStd v k heol

theorem propSeg_empty_or_endsNl (eol : String) (elk : List String) (log : Json)
    (k : String) (heol : EndsNl eol) :
    propSeg eol elk log k = "" ∨ EndsNl (propSeg eol elk log k) := by
  unfold propSeg
  split
  · left; rfl
  · split
    · right; exact endsNl_append _ _ heol
    · right; exact endsNl_append _ _ heol

theorem errorPropsBlock_empty_or_endsNl (eol mk : String) (elk : List String)
    (props : List String) (log : Json) (heol : EndsNl eol) :
    errorPropsBlock eol mk elk props log = "" ∨
      EndsNl (errorPropsBlock eol mk elk props log) := by
  unfold errorPropsBlock
  split
  · rw [foldl_append_eq, String.empty_append]
    apply sjoin_endsNl_or_empty
    intro x hx
    obtain ⟨k, _, hk⟩ := List.mem_map.mp hx
    rw [← hk]
    exact propSeg_empty_or_endsNl eol elk log k heol
  · left; rfl

/-- Every string the formatter returns ends with a bare newline (the last
character of either terminator). -/
theorem pretty_ok_endsNl (opts : Opts) (cl : ColorLib) (tl : TimeLib)
    (jsonParser : String → Option Json) (inputLine : String) (s : String)
    (h : pretty opts cl tl jsonParser inputLine = Except.ok s) : EndsNl s := by
  have heol : EndsNl (eolStr opts) := endsNl_eolStr opts
  unfold pretty at h
  split at h
  · cases h
    exact endsNl_append _ _ heol
  · split at h
    · cases h
      exact endsNl_append _ _ heol
    · split at h
      · cases h
      · split at h
        · split at h
          · cases h
            apply endsNl_append_cases
            · exact endsNl_append _ _ heol
            · exact errorPropsBlock_empty_or_endsNl _ _ _ _ _ heol
          · cases h
        · cases h
          apply endsNl_append_cases
          · exact headerLine_endsNl opts cl _
          · exact filterObjects_empty_or_endsNl _ _ _ _ _ heol

/-! ## Claims -/

theorem isPinoLog_eq_false (l : Json)
    (h : truthy (some l) = false ∨ hasOwn l "v" = false ∨
      ∀ n : Int, jsGet l "v" = some (Json.num n) → n ≠ 1) :
    isPinoLog (some l) = false := by
  unfold isPinoLog
  rcases h with h | h | h
  · simp [h]
  · simp [h]
  · cases hv : jsGet l "v" with
    | none => simp [hv]
    | some v =>
        cases v with
        | num n =>
            have := h n hv
            simp [hv, this]
        | null => simp [hv]
        | bool b => simp [hv]
        | str s => simp [hv]
        | arr xs => simp [hv]
        | obj fs => simp [hv]

/-- C1: any line that fails to parse, or parses to a falsy value, or to a
value without an own `v` property strictly equal to the number 1, is passed
through unchanged with the configured terminator appended. -/
theorem passthrough_unrecognized (opts : Opts) (cl : ColorLib) (tl : TimeLib)
    (jsonParser : String → Option Json) (inputLine : String)
    (h : jsonParser inputLine = none ∨
      truthy (jsonParser inputLine) = false ∨
      (∃ l, jsonParser inputLine = some l ∧ hasOwn l "v" = false) ∨
      (∃ l, jsonParser inputLine = some l ∧
        ∀ n : Int, jsGet l "v" = some (Json.num n) → n ≠ 1)) :
    pretty opts cl tl jsonParser inputLine = Except.ok (inputLine ++ eolStr opts) := by
  unfold pretty
  cases hp : jsonParser inputLine with
  | none => rfl
  | some l =>
      have hfalse : isPinoLog (some l) = false := by
        apply isPinoLog_eq_false
        rcases h with h | h | ⟨l2, hl2, h2⟩ | ⟨l2, hl2, h2⟩
        · rw [hp] at h; cases h
        · rw [hp] at h; left; exact h
        · rw [hp] at hl2
          injection hl2 with hl2
          subst hl2
          right; left; exact h2
        · rw [hp] at hl2
          injection hl2 with hl2
          subst hl2
          right; right; exact h2
      simp [hfalse]

theorem passthrough_unrecognized_witness :
    pretty defaultOptions plainColors okTimeLib (fun _ => none) "not json at all" =
      Except.ok ("not json at all" ++ eolStr defaultOptions) :=
  passthrough_unrecognized defaultOptions plainColors okTimeLib (fun _ => none)
    "not json at all" (Or.inl rfl)

/-- C2: evaluation showing the claimed totality fails on the code: a
recognized record selecting the error branch without a `stack` string makes
the formatter raise (JS: `undefined.split` TypeError) instead of returning a
chunk. -/
theorem errorBranch_missing_stack_raises :
    pretty defaultOptions plainColors okTimeLib
        (parseAs errLogNoStack "\x7b\"v\":1,\"type\":\"Error\"\x7d")
        "\x7b\"v\":1,\"type\":\"Error\"\x7d" =
      Except.error "TypeError: cannot read property split of a non-string stack" := by
  decide

/-- C3 counterexample: with `translateTime` on, a failure of the pattern
compilation step (a bad pattern string) escapes the formatter, contradicting
the claim that every time-formatting failure is recovered by falling back to
the raw timestamp. -/
theorem formatTime_badPattern_propagates_cex :
    pretty ttBadOpts plainColors badPatternTimeLib (parseAs simpleLog "\x7b\"v\":1\x7d")
        "\x7b\"v\":1\x7d" =
      Except.error "IllegalArgumentException: bad pattern" := by
  decide

/-- C3 amended: only a failure of the terminal `formatter.format` call is
caught; in that case the original raw timestamp value is returned unmodified
and no error propagates.  (Failures constructing the instant, zone or
formatter — e.g. a bad pattern — propagate, per the counterexample.) -/
theorem formatTime_formatFailure_fallback (tl : TimeLib) (epoch : Option Json)
    (fs : String) (lt : Bool) (i z f : Nat) (e : String)
    (h1 : tl.ofEpochMilli epoch = Except.ok i)
    (h2 : tl.ofInstant i lt = Except.ok z)
    (h3 : tl.ofPattern fs = Except.ok f)
    (h4 : tl.format f z = Except.error e) :
    formatTime tl epoch fs lt = Except.ok epoch := by
  unfold formatTime
  simp [h1, h2, h3, h4]

theorem formatTime_formatFailure_fallback_witness :
    formatTime failFormatTimeLib (some (Json.num 7)) "p" false =
      Except.ok (some (Json.num 7)) :=
  formatTime_formatFailure_fallback failFormatTimeLib (some (Json.num 7)) "p" false
    0 0 0 "DateTimeException: format failure" rfl rfl rfl rfl

theorem joinWith_cons_left (sep p a : String) (xs : List String) :
    p ++ joinWith sep (a :: xs) = joinWith sep ((p ++ a) :: xs) := by
  cases xs with
  | nil => rfl
  | cons y ys => simp [joinWith, String.append_assoc]

theorem splitCrNlStr_ne_nil (s : String) : splitCrNlStr s ≠ [] := by
  unfold splitCrNlStr
  simp [splitCrNlL_ne_nil]

/-- Line 143 prepends one indentation unit to the joined stack, so every
stack line — the first included — carries exactly one added unit. -/
theorem ident_join_redistribute (eol s : String) :
    IDENT ++ joinLinesWithIndentation eol s =
      joinWith eol ((splitCrNlStr s).map (fun l => IDENT ++ l)) := by
  obtain ⟨l0, rest, hsplit⟩ := List.exists_cons_of_ne_nil (splitCrNlStr_ne_nil s)
  unfold joinLinesWithIndentation
  rw [hsplit, List.map_cons, joinWith_cons_left]

/-- C4 counterexample: with stack `"a\nb"`, the rendered output indents the
first stack line too; the claimed rendering (first line unindented) differs. -/
theorem stack_first_line_indented_cex :
    pretty defaultOptions plainColors okTimeLib (parseAs errLogAB txtAB) txtAB =
        Except.ok "[undefined] USERLVL: \n    a\n    b\n" ∧
      "[undefined] USERLVL: \n    a\n    b\n" ≠
        "[undefined] USERLVL: " ++ "\n" ++ "a" ++ "\n" ++ IDENT ++ "b" ++ "\n" := by
  constructor
  · decide
  · decide

theorem assocGet_setAssoc_ne (fs : List (String × Json)) (k k2 : String)
    (v : Json) (h : k2 ≠ k) :
    assocGet (setAssoc fs k v) k2 = assocGet fs k2 := by
  induction fs with
  | nil =>
      unfold setAssoc assocGet
      rw [if_neg (fun he => h he.symm)]
      rfl
  | cons p rest ih =>
      obtain ⟨k1, v1⟩ := p
      unfold setAssoc
      by_cases hk : k1 = k
      · rw [if_pos hk]
        unfold assocGet
        rw [if_neg (fun he => h he.symm), if_neg (fun he => h (hk ▸ he).symm)]
      · rw [if_neg hk]
        unfold assocGet
        by_cases hk2 : k1 = k2
        · rw [if_pos hk2, if_pos hk2]
        · rw [if_neg hk2, if_neg hk2, ih]

/-- `log.time = r` changes no property other than `time`. -/
theorem jsGet_setTime_ne (log : Json) (r : Option Json) (k : String)
    (h : k ≠ "time") : jsGet (setTime log r) k = jsGet log k := by
  cases r with
  | none => rfl
  | some v =>
      cases log with
      | obj fs => exact assocGet_setAssoc_ne fs "time" k v h
      | null => rfl
      | bool b => rfl
      | num n => rfl
      | str s => rfl
      | arr xs => rfl

/-- A successful time translation (lines 99-101) leaves every property other
than `time` unchanged. -/
theorem translateLog_jsGet_ne (opts : Opts) (tl : TimeLib) (log log2 : Json)
    (k : String) (htl : translateLog opts tl log = Except.ok log2)
    (hk : k ≠ "time") : jsGet log2 k = jsGet log k := by
  unfold translateLog at htl
  by_cases htt : opts.translateTime = true
  · rw [if_pos htt] at htl
    cases hft : formatTime tl (jsGet log "time") opts.dateFormat opts.localTime with
    | error e =>
        rw [hft] at htl
        simp [Except.map] at htl
    | ok r =>
        rw [hft] at htl
        simp [Except.map] at htl
        rw [← htl]
        exact jsGet_setTime_ne log r k hk
  · rw [if_neg htt] at htl
    injection htl with h2
    rw [← h2]

/-- C4 amended: for an error record with a string stack, under every
configuration on which rendering happens (any `translateTime` setting whose
time translation returns), the stack block is the stack's lines each
indented by exactly one indentation unit (the first line by the block prefix
of line 143, the others by the join), joined with the configured terminator
and followed by one trailing terminator, placed between the header and the
extra-props block. -/
theorem stackBlock_all_lines_indented (opts : Opts) (cl : ColorLib) (tl : TimeLib)
    (jsonParser : String → Option Json) (inputLine : String) (log : Json)
    (stack : String)
    (hp : jsonParser inputLine = some log)
    (hrec : isPinoLog (some log) = true)
    (htype : jsGet log "type" = some (Json.str "Error"))
    (hstack : jsGet log "stack" = some (Json.str stack)) :
    ∀ log2, translateLog opts tl log = Except.ok log2 →
      pretty opts cl tl jsonParser inputLine =
        Except.ok
          (headerLine opts cl log2 ++
            joinWith (eolStr opts) ((splitCrNlStr stack).map (fun l => IDENT ++ l)) ++
            eolStr opts ++
            errorPropsBlock (eolStr opts) opts.messageKey opts.errorLikeObjectKeys
              (splitCommaStr opts.errorProps) log2) := by
  intro log2 htl
  have htype2 : jsGet log2 "type" = some (Json.str "Error") := by
    rw [translateLog_jsGet_ne opts tl log log2 "type" htl (by decide)]
    exact htype
  have hstack2 : jsGet log2 "stack" = some (Json.str stack) := by
    rw [translateLog_jsGet_ne opts tl log log2 "stack" htl (by decide)]
    exact hstack
  unfold pretty
  rw [hp]
  simp only [hrec]
  rw [if_neg (show ¬ (true = false) by simp)]
  rw [htl]
  split
  · rename_i e heq
    exact absurd heq (by simp)
  · rename_i log3 heq
    injection heq with heq2
    subst heq2
    rw [htype2, hstack2]
    show Except.ok
        (headerLine opts cl log2 ++ IDENT ++
          joinLinesWithIndentation (eolStr opts) stack ++ eolStr opts ++
          errorPropsBlock (eolStr opts) opts.messageKey opts.errorLikeObjectKeys
            (splitCommaStr opts.errorProps) log2) = _
    rw [String.append_assoc (headerLine opts cl log2) IDENT
      (joinLinesWithIndentation (eolStr opts) stack)]
    rw [ident_join_redistribute]

theorem stackBlock_all_lines_indented_witness :
    pretty ttOkOpts plainColors okTimeLib (parseAs errLogAB txtAB) txtAB =
      Except.ok
        (headerLine ttOkOpts plainColors errLogABTranslated ++
          joinWith (eolStr ttOkOpts)
            ((splitCrNlStr "a\nb").map (fun l => IDENT ++ l)) ++
          eolStr ttOkOpts ++
          errorPropsBlock (eolStr ttOkOpts) ttOkOpts.messageKey
            ttOkOpts.errorLikeObjectKeys (splitCommaStr ttOkOpts.errorProps)
            errLogABTranslated) :=
  stackBlock_all_lines_indented ttOkOpts plainColors okTimeLib
    (parseAs errLogAB txtAB) txtAB errLogAB "a\nb" rfl rfl rfl rfl
    errLogABTranslated rfl

/-! Decimal-string reasoning for the severity-table lookup (the table is
keyed by the string coercion of the numeric level). -/

def foldDecL (l : List Char) : Nat :=
  l.foldl (fun a c => a * 10 + (c.toNat - 48)) 0

def foldDec (s : String) : Nat := foldDecL s.data

theorem digitChar_toNat (d : Nat) (h : d < 10) : (digitChar d).toNat = 48 + d := by
  interval_cases d <;> rfl

theorem natToDecAux_fold (fuel n : Nat) (h : n < fuel) :
    foldDecL (natToDecAux fuel n) = n := by
  induction fuel generalizing n with
  | zero => omega
  | succ fuel ih =>
      unfold natToDecAux
      by_cases hn : n < 10
      · rw [if_pos hn]
        unfold foldDecL
        simp [digitChar_toNat n hn]
      · rw [if_neg hn]
        unfold foldDecL at *
        rw [List.foldl_append]
        have hdiv : n / 10 < fuel := by
          have h1 : 0 < n := by omega
          have := Nat.div_lt_self h1 (by omega : 1 < 10)
          omega
        rw [ih (n / 10) hdiv]
        simp only [List.foldl]
        rw [digitChar_toNat (n % 10) (Nat.mod_lt n (by omega))]
        omega

theorem natToDec_fold (n : Nat) : foldDec (natToDec n) = n := by
  unfold natToDec foldDec
  exact natToDecAux_fold (n + 1) n (by omega)

theorem natToDec_eq_iff (n : Nat) (t : String) :
    natToDec n = t ↔ n = foldDec t ∧ natToDec (foldDec t) = t := by
  constructor
  · intro h
    have : foldDec t = n := by rw [← h, natToDec_fold]
    constructor
    · omega
    · rw [this, h]
  · intro ⟨h1, h2⟩
    rw [h1, h2]

theorem intToDec_eq_iff (n : Int) (t : String) (ht : t.data.head? ≠ some '-') :
    intToDec n = t ↔ 0 ≤ n ∧ n.toNat = foldDec t ∧ natToDec (foldDec t) = t := by
  unfold intToDec
  split
  · constructor
    · intro h
      exfalso
      apply ht
      rw [← h, String.data_append]
      rfl
    · intro ⟨h1, _⟩
      omega
  · rw [natToDec_eq_iff]
    constructor
    · intro ⟨h1, h2⟩
      exact ⟨by omega, h1, h2⟩
    · intro ⟨_, h1, h2⟩
      exact ⟨h1, h2⟩

/-- The claim's severity table, stated from the spec's words. -/
def specSeverityLabel (n : Int) : String :=
  if n = 10 then "TRACE" else if n = 20 then "DEBUG" else if n = 30 then "INFO"
  else if n = 40 then "WARN" else if n = 50 then "ERROR" else if n = 60 then "FATAL"
  else "USERLVL"

theorem levels_intToDec_eq_none (n : Int)
    (h10 : n ≠ 10) (h20 : n ≠ 20) (h30 : n ≠ 30) (h40 : n ≠ 40) (h50 : n ≠ 50)
    (h60 : n ≠ 60) : levels (intToDec n) = none := by
  unfold levels
  split_ifs with g1 g2 g3 g4 g5 g6 g7
  · rw [intToDec_eq_iff n "default" (by decide)] at g1
    exact absurd g1.2.2 (by decide)
  · rw [intToDec_eq_iff n "60" (by decide)] at g2
    obtain ⟨ha, hb, _⟩ := g2
    rw [(by decide : foldDec "60" = 60)] at hb
    exact absurd (by omega : n = 60) h60
  · rw [intToDec_eq_iff n "50" (by decide)] at g3
    obtain ⟨ha, hb, _⟩ := g3
    rw [(by decide : foldDec "50" = 50)] at hb
    exact absurd (by omega : n = 50) h50
  · rw [intToDec_eq_iff n "40" (by decide)] at g4
    obtain ⟨ha, hb, _⟩ := g4
    rw [(by decide : foldDec "40" = 40)] at hb
    exact absurd (by omega : n = 40) h40
  · rw [intToDec_eq_iff n "30" (by decide)] at g5
    obtain ⟨ha, hb, _⟩ := g5
    rw [(by decide : foldDec "30" = 30)] at hb
    exact absurd (by omega : n = 30) h30
  · rw [intToDec_eq_iff n "20" (by decide)] at g6
    obtain ⟨ha, hb, _⟩ := g6
    rw [(by decide : foldDec "20" = 20)] at hb
    exact absurd (by omega : n = 20) h20
  · rw [intToDec_eq_iff n "10" (by decide)] at g7
    obtain ⟨ha, hb, _⟩ := g7
    rw [(by decide : foldDec "10" = 10)] at hb
    exact absurd (by omega : n = 10) h10
  · rfl

/-- C5: with colorization off, a record whose numeric level is one of
10/20/30/40/50/60 renders TRACE/DEBUG/INFO/WARN/ERROR/FATAL, any other
numeric level renders the default label USERLVL, the token is never empty,
and the applied styling is the identity. -/
theorem severity_token_total (opts : Opts) (cl : ColorLib) (log : Json) (n : Int)
    (hcol : opts.colorize = false)
    (hlvl : jsGet log "level" = some (Json.num n)) :
    coloredLevel opts cl log = specSeverityLabel n ∧
      specSeverityLabel n ≠ "" ∧
      ∀ key s, colorFor opts cl key s = s := by
  refine ⟨?_, ?_, ?_⟩
  · unfold coloredLevel
    rw [hlvl]
    by_cases h10 : n = 10
    · subst h10
      rw [(by decide : jsToString (some (Json.num 10)) = "10")]
      show colorFor opts cl "10" "TRACE" = specSeverityLabel 10
      unfold colorFor
      rw [hcol]
      rfl
    by_cases h20 : n = 20
    · subst h20
      rw [(by decide : jsToString (some (Json.num 20)) = "20")]
      show colorFor opts cl "20" "DEBUG" = specSeverityLabel 20
      unfold colorFor
      rw [hcol]
      rfl
    by_cases h30 : n = 30
    · subst h30
      rw [(by decide : jsToString (some (Json.num 30)) = "30")]
      show colorFor opts cl "30" "INFO" = specSeverityLabel 30
      unfold colorFor
      rw [hcol]
      rfl
    by_cases h40 : n = 40
    · subst h40
      rw [(by decide : jsToString (some (Json.num 40)) = "40")]
      show colorFor opts cl "40" "WARN" = specSeverityLabel 40
      unfold colorFor
      rw [hcol]
      rfl
    by_cases h50 : n = 50
    · subst h50
      rw [(by decide : jsToString (some (Json.num 50)) = "50")]
      show colorFor opts cl "50" "ERROR" = specSeverityLabel 50
      unfold colorFor
      rw [hcol]
      rfl
    by_cases h60 : n = 60
    · subst h60
      rw [(by decide : jsToString (some (Json.num 60)) = "60")]
      show colorFor opts cl "60" "FATAL" = specSeverityLabel 60
      unfold colorFor
      rw [hcol]
      rfl
    have hjs : jsToString (some (Json.num n)) = intToDec n := rfl
    rw [hjs]
    show (match levels (intToDec n) with
      | some lbl => colorFor opts cl (intToDec n) lbl
      | none => colorFor opts cl "default" ((levels "default").getD "")) =
        specSeverityLabel n
    rw [levels_intToDec_eq_none n h10 h20 h30 h40 h50 h60]
    show colorFor opts cl "default" ((levels "default").getD "") = specSeverityLabel n
    unfold colorFor
    rw [hcol]
    show nocolor ((levels "default").getD "") = specSeverityLabel n
    rw [(by decide : (levels "default").getD "" = "USERLVL")]
    unfold specSeverityLabel
    rw [if_neg h10, if_neg h20, if_neg h30, if_neg h40, if_neg h50, if_neg h60]
    rfl
  · unfold specSeverityLabel
    split_ifs <;> decide
  · intro key s
    unfold colorFor
    rw [hcol]
    rfl

theorem severity_token_total_witness :
    coloredLevel defaultOptions plainColors lvlLog = specSeverityLabel 25 ∧
      specSeverityLabel 25 ≠ "" ∧
      ∀ key s, colorFor defaultOptions plainColors key s = s :=
  severity_token_total defaultOptions plainColors lvlLog 25 rfl rfl

theorem assocGet_isSome_of_mem (fs : List (String × Json)) (k : String)
    (h : k ∈ fs.map Prod.fst) : ∃ v, assocGet fs k = some v := by
  induction fs with
  | nil => simp at h
  | cons p rest ih =>
      obtain ⟨k', v⟩ := p
      by_cases hk : k' = k
      · exact ⟨v, by unfold assocGet; rw [if_pos hk]⟩
      · have : k ∈ rest.map Prod.fst := by
          simp only [List.map_cons, List.mem_cons] at h
          rcases h with h | h
          · exact absurd h.symm hk
          · exact h
        obtain ⟨w, hw⟩ := ih this
        exact ⟨w, by unfold assocGet; rw [if_neg hk]; exact hw⟩

/-- C6: with `errorProps = "*"`, the printed property list of an error record
is exactly the record's keys minus the exclusion set: excluded keys are
printed zero times, every other key exactly once, the rendered block is the
concatenation of one segment per printed key, and each such segment starts
with its own `key: `. -/
theorem errorProps_wildcard_once (eol mk : String) (elk : List String)
    (fs : List (String × Json)) (hnodup : (jsKeys (Json.obj fs)).Nodup) :
    (∀ k ∈ excludedProps mk,
        (propsForPrint (splitCommaStr "*") mk (Json.obj fs)).count k = 0) ∧
      (∀ k ∈ jsKeys (Json.obj fs), k ∉ excludedProps mk →
        (propsForPrint (splitCommaStr "*") mk (Json.obj fs)).count k = 1) ∧
      errorPropsBlock eol mk elk (splitCommaStr "*") (Json.obj fs) =
        sjoin ((propsForPrint (splitCommaStr "*") mk (Json.obj fs)).map
          (propSeg eol elk (Json.obj fs))) ∧
      ∀ k ∈ propsForPrint (splitCommaStr "*") mk (Json.obj fs),
        ∃ r, propSeg eol elk (Json.obj fs) k = k ++ ": " ++ r := by
  have hsplit : splitCommaStr "*" = ["*"] := by decide
  have hprops : propsForPrint (splitCommaStr "*") mk (Json.obj fs) =
      (jsKeys (Json.obj fs)).filter (fun p => !(excludedProps mk).contains p) := by
    rw [hsplit]
    unfold propsForPrint
    have hc : (["*"] : List String).head? = some "*" := rfl
    rw [if_pos hc]
  refine ⟨?_, ?_, ?_, ?_⟩
  · intro k hk
    rw [hprops, List.count_eq_zero]
    intro hmem
    have hpred := List.of_mem_filter hmem
    simp at hpred
    exact hpred hk
  · intro k hk hout
    rw [hprops]
    apply List.count_eq_one_of_mem (hnodup.filter _)
    apply List.mem_filter.mpr
    refine ⟨hk, ?_⟩
    simp [hout]
  · unfold errorPropsBlock
    rw [hsplit]
    rw [if_pos (by decide : (["*"] : List String).length > 0)]
    rw [foldl_append_eq, String.empty_append]
  · intro k hk
    rw [hprops] at hk
    have hkeys : k ∈ jsKeys (Json.obj fs) := List.mem_of_mem_filter hk
    obtain ⟨v, hv⟩ := assocGet_isSome_of_mem fs k hkeys
    unfold propSeg
    rw [show jsGet (Json.obj fs) k = some v from hv]
    show ∃ r,
      (if isInstanceOfObject v = true then
        k ++ ": \x7b" ++ eol ++ filterObjects eol v "" elk false ++ "\x7d" ++ eol
      else k ++ ": " ++ jsToStringV v ++ eol) = k ++ ": " ++ r
    by_cases hobj : isInstanceOfObject v = true
    · rw [if_pos hobj]
      refine ⟨"\x7b" ++ eol ++ filterObjects eol v "" elk false ++ "\x7d" ++ eol, ?_⟩
      apply String.ext
      simp only [String.data_append]
      simp
    · rw [if_neg hobj]
      exact ⟨jsToStringV v ++ eol, by simp [String.append_assoc]⟩

theorem errorProps_wildcard_once_witness :
    (∀ k ∈ excludedProps "msg",
        (propsForPrint (splitCommaStr "*") "msg" (Json.obj wildLog)).count k = 0) ∧
      (∀ k ∈ jsKeys (Json.obj wildLog), k ∉ excludedProps "msg" →
        (propsForPrint (splitCommaStr "*") "msg" (Json.obj wildLog)).count k = 1) ∧
      errorPropsBlock "\n" "msg" ["err", "error"] (splitCommaStr "*") (Json.obj wildLog) =
        sjoin ((propsForPrint (splitCommaStr "*") "msg" (Json.obj wildLog)).map
          (propSeg "\n" ["err", "error"] (Json.obj wildLog))) ∧
      ∀ k ∈ propsForPrint (splitCommaStr "*") "msg" (Json.obj wildLog),
        ∃ r, propSeg "\n" ["err", "error"] (Json.obj wildLog) k = k ++ ": " ++ r :=
  errorProps_wildcard_once "\n" "msg" ["err", "error"] wildLog (by decide)

theorem append_ne_empty_left (s t : String) (h : s ≠ "") : s ++ t ≠ "" := by
  intro he
  have h2 := congrArg String.data he
  rw [String.data_append] at h2
  have h3 : s.data = [] := (List.append_eq_nil.mp h2).1
  exact h (String.ext h3)

/-- C7 counterexample: a recognized record carrying `pid: 0` (a falsy pid)
renders no parenthesized identity block at all, though the claim requires
the block whenever the record carries a pid. -/
theorem identityBlock_falsy_pid_cex :
    pretty defaultOptions plainColors okTimeLib (parseAs pidLog txtPid) txtPid =
        Except.ok "[undefined] USERLVL: \n" ∧
      hasOwn pidLog "pid" = true ∧
      ("[undefined] USERLVL: \n".data.contains '(') = false := by
  refine ⟨by decide, by decide, by decide⟩

/-- C7 amended: the parenthesized identity block appears exactly when the
record carries a truthy name, pid or hostname (JS truthiness: `0` and `""`
count as absent); when it appears it consists of the truthy name, the pid
(after a `/` separator iff a truthy name is also present), and ` on ` plus
the hostname when truthy. -/
theorem identityBlock_truthy_characterization (log : Json) :
    ((identityBlock log = "") ↔
      (truthy (jsGet log "name") = false ∧ truthy (jsGet log "pid") = false ∧
        truthy (jsGet log "hostname") = false)) ∧
    ((truthy (jsGet log "name") = true ∨ truthy (jsGet log "pid") = true ∨
        truthy (jsGet log "hostname") = true) →
      identityBlock log =
        " (" ++
          (if truthy (jsGet log "name") then jsToString (jsGet log "name") else "") ++
          (if truthy (jsGet log "name") && truthy (jsGet log "pid") then
            "/" ++ jsToString (jsGet log "pid")
          else if truthy (jsGet log "pid") then jsToString (jsGet log "pid") else "") ++
          (if truthy (jsGet log "hostname") then
            " on " ++ jsToString (jsGet log "hostname")
          else "") ++ ")") := by
  by_cases hn : truthy (jsGet log "name") = true <;>
    by_cases hp : truthy (jsGet log "pid") = true <;>
      by_cases hh : truthy (jsGet log "hostname") = true <;>
    simp [identityBlock, hn, hp, hh, String.append_assoc, String.append_empty]
  all_goals
    first
      | exact append_ne_empty_left _ _ (by decide)
      | refine ⟨append_ne_empty_left _ _ (by decide), ?_⟩
        rw [show (" ( on " : String) = " (" ++ " on " from by decide,
          String.append_assoc]

theorem identityBlock_truthy_characterization_witness :
    identityBlock identLog = " (app/42 on example)" := by
  have h := (identityBlock_truthy_characterization identLog).2 (Or.inl (by decide))
  rw [h]
  decide

/-- C8: for the non-error body (the line-172 call, which passes
`excludeStandardKeys = true`), the body is the concatenation of one segment
per record key, and the segment of every standard key and of the configured
message key (excluded by consing `messageKey` onto the standard list, not by
membership in it - the standard list itself does not contain `msg`) is
empty, i.e. such keys never produce a generic `key: value` line. -/
theorem filterObjects_excludes_standard_and_message (eol mk : String)
    (elk : List String) (v : Json) :
    filterObjects eol v mk elk true =
        sjoin ((jsKeys v).map (foSeg eol mk elk true v)) ∧
      (∀ k, (k ∈ standardKeys ∨ k = mk) → k ∉ elk →
        foSeg eol mk elk true v k = "") ∧
      "msg" ∉ standardKeys := by
  refine ⟨?_, ?_, by decide⟩
  · unfold filterObjects
    rw [foldl_append_eq, String.empty_append]
  · intro k hk helk
    unfold foSeg
    have h1 : ¬ (elk.contains k = true) := by simp [helk]
    rw [if_neg h1]
    have h2 : k ∈ mk :: (if true then standardKeys else []) := by
      rcases hk with hk | hk
      · exact List.mem_cons_of_mem _ (by simpa using hk)
      · rw [hk]; exact List.mem_cons_self _ _
    rw [if_pos (by simpa using h2)]

theorem filterObjects_excludes_standard_and_message_witness :
    foSeg "\n" "msg" ["err", "error"] true (Json.obj wildLog) "pid" = "" ∧
      foSeg "\n" "msg" ["err", "error"] true (Json.obj wildLog) "msg" = "" :=
  ⟨(filterObjects_excludes_standard_and_message "\n" "msg" ["err", "error"]
      (Json.obj wildLog)).2.1 "pid" (Or.inl (by decide)) (by decide),
    (filterObjects_excludes_standard_and_message "\n" "msg" ["err", "error"]
      (Json.obj wildLog)).2.1 "msg" (Or.inr rfl) (by decide)⟩

/-- C9 counterexample: (1) the formatter can throw instead of producing a
chunk (error branch without a stack string); (2) with `crlf` on and an
error-like key whose printed name matches the stack-line pattern, the
returned chunk ends in a bare `\n`, not the configured `\r\n` terminator. -/
theorem output_chunk_cex :
    pretty defaultOptions plainColors okTimeLib (parseAs errLvlLog txtErrLvl)
        txtErrLvl =
        Except.error "TypeError: cannot read property split of a non-string stack" ∧
      pretty crlfOpts plainColors okTimeLib (parseAs quotedStackLog txtQuotedStack)
          txtQuotedStack = Except.ok "[undefined] USERLVL: \r\n\n" ∧
      ¬ (("\r\n" : String).data <:+ ("[undefined] USERLVL: \r\n\n" : String).data) := by
  refine ⟨by decide, by decide, by decide⟩

/-- C9 amended: whenever the formatter returns, it returns exactly one
non-empty chunk ending in a newline character; with `crlf` off that newline
is the configured terminator.  (It can instead throw — first counterexample —
and with `crlf` on a pathological error-like key can leave a bare trailing
`\n` — second counterexample.) -/
theorem output_chunk_terminated (opts : Opts) (cl : ColorLib) (tl : TimeLib)
    (jsonParser : String → Option Json) (inputLine : String) (s : String)
    (h : pretty opts cl tl jsonParser inputLine = Except.ok s) :
    s ≠ "" ∧ EndsNl s ∧ (opts.crlf = false → (eolStr opts).data <:+ s.data) := by
  have he := pretty_ok_endsNl opts cl tl jsonParser inputLine s h
  refine ⟨endsNl_ne_empty s he, he, ?_⟩
  intro hc
  unfold eolStr
  rw [hc]
  exact he

theorem output_chunk_terminated_witness :
    ("abc\n" : String) ≠ "" ∧ EndsNl "abc\n" ∧
      (defaultOptions.crlf = false →
        (eolStr defaultOptions).data <:+ ("abc\n" : String).data) :=
  output_chunk_terminated defaultOptions plainColors okTimeLib (fun _ => none)
    "abc" "abc\n" (by decide)

theorem strInfix_self (mid : String) : mid.data <:+: mid.data :=
  List.infix_refl mid.data

theorem strInfix_mono_right (x y mid : String) (h : mid.data <:+: x.data) :
    mid.data <:+: (x ++ y).data := by
  rw [String.data_append]
  obtain ⟨s, t, hst⟩ := h
  exact ⟨s, t ++ y.data, by rw [← hst]; simp [List.append_assoc]⟩

theorem strInfix_mono_left (x y mid : String) (h : mid.data <:+: y.data) :
    mid.data <:+: (x ++ y).data := by
  rw [String.data_append]
  obtain ⟨s, t, hst⟩ := h
  exact ⟨x.data ++ s, t, by rw [← hst]; simp [List.append_assoc]⟩

/-- C10 counterexample: a recognized record that lacks `time`, with
`translateTime` off, need not yield a rendered header at all: if it also
selects the error branch without a stack string the formatter throws. -/
theorem missing_time_cex :
    hasOwn noTimeErrLog "time" = false ∧
      pretty defaultOptions plainColors okTimeLib
          (parseAs noTimeErrLog txtNoTimeErr) txtNoTimeErr =
        Except.error "TypeError: cannot read property split of a non-string stack" := by
  refine ⟨by decide, by decide⟩

/-- C10 amended: a recognized record lacking `time`, with `translateTime`
off, that does not select the error branch, renders successfully and its
header carries the literal bracket token `[undefined]`; the missing
timestamp neither aborts rendering nor drops the token. -/
theorem missing_time_renders_undefined (opts : Opts) (cl : ColorLib) (tl : TimeLib)
    (jsonParser : String → Option Json) (inputLine : String) (log : Json)
    (hp : jsonParser inputLine = some log)
    (hrec : isPinoLog (some log) = true)
    (htime : jsGet log "time" = none)
    (htt : opts.translateTime = false)
    (htype : jsGet log "type" ≠ some (Json.str "Error")) :
    pretty opts cl tl jsonParser inputLine =
        Except.ok (headerLine opts cl log ++
          filterObjects (eolStr opts) log opts.messageKey opts.errorLikeObjectKeys
            true) ∧
      ("[undefined]" : String).data <:+:
        (headerLine opts cl log ++
          filterObjects (eolStr opts) log opts.messageKey opts.errorLikeObjectKeys
            true).data := by
  constructor
  · unfold pretty
    rw [hp]
    simp only [hrec]
    rw [if_neg (show ¬ (true = false) by simp)]
    unfold translateLog
    rw [htt]
    rw [if_neg (show ¬ (false = true) by simp)]
    split
    · rename_i e heq
      exact absurd heq (by simp)
    · rename_i log2 heq
      injection heq with heq2
      subst heq2
      split
      · rename_i heq3
        exact absurd heq3 htype
      · rfl
  · apply strInfix_mono_right
    simp only [headerLine]
    rw [htime]
    rw [show ("[" : String) ++ jsToString none ++ "]" = "[undefined]" from by decide]
    apply strInfix_mono_right
    by_cases hm : truthy (jsGet log opts.messageKey) = true
    · rw [if_pos hm]
      apply strInfix_mono_right
      apply strInfix_mono_right
      apply strInfix_mono_right
      by_cases hlf : opts.levelFirst = true
      · rw [if_pos hlf]
        exact strInfix_mono_left _ _ _ (strInfix_self _)
      · rw [if_neg hlf]
        exact strInfix_mono_right _ _ _ (strInfix_mono_right _ _ _ (strInfix_self _))
    · rw [if_neg hm]
      apply strInfix_mono_right
      apply strInfix_mono_right
      by_cases hlf : opts.levelFirst = true
      · rw [if_pos hlf]
        exact strInfix_mono_left _ _ _ (strInfix_self _)
      · rw [if_neg hlf]
        exact strInfix_mono_right _ _ _ (strInfix_mono_right _ _ _ (strInfix_self _))

theorem missing_time_renders_undefined_witness :
    (pretty defaultOptions plainColors okTimeLib (parseAs noTimeLog txtNoTime)
          txtNoTime =
        Except.ok (headerLine defaultOptions plainColors noTimeLog ++
          filterObjects (eolStr defaultOptions) noTimeLog defaultOptions.messageKey
            defaultOptions.errorLikeObjectKeys true)) ∧
      ("[undefined]" : String).data <:+:
        (headerLine defaultOptions plainColors noTimeLog ++
          filterObjects (eolStr defaultOptions) noTimeLog defaultOptions.messageKey
            defaultOptions.errorLikeObjectKeys true).data :=
  missing_time_renders_undefined defaultOptions plainColors okTimeLib
    (parseAs noTimeLog txtNoTime) txtNoTime noTimeLog rfl rfl rfl rfl
    (by
      intro h
      rw [show jsGet noTimeLog "type" = none from rfl] at h
      exact Option.noConfusion h)


/-! Sanity checks: the embedding reproduces the spec's example scenarios. -/

theorem spec_scenario_basic :
    pretty defaultOptions plainColors okTimeLib
      (fun _ => some (Json.obj [("v", Json.num 1), ("level", Json.num 30),
        ("time", Json.num 1500000000000), ("msg", Json.str "hello"),
        ("pid", Json.num 1), ("hostname", Json.str "h")])) "x" =
      Except.ok "[1500000000000] INFO (1 on h): hello\n" := by decide

theorem spec_scenario_not_json :
    pretty defaultOptions plainColors okTimeLib (fun _ => none) "not json at all" =
      Except.ok "not json at all\n" := by decide

theorem spec_scenario_error :
    pretty defaultOptions plainColors okTimeLib
      (fun _ => some (Json.obj [("v", Json.num 1), ("level", Json.num 50),
        ("type", Json.str "Error"), ("msg", Json.str "boom"),
        ("stack", Json.str "Error: boom\n    at f (x.js:1:1)")])) "x" =
      Except.ok "[undefined] ERROR: boom\n    Error: boom\n        at f (x.js:1:1)\n" := by
  decide
